import Mathlib

set_option maxHeartbeats 1000000

/-!
Verification of the bulk spline evaluator (src/src/math/bulk_spline_evaluator.cpp).

The per-slot state (structure-of-arrays columns) and the operations on it are
shallowly embedded below.  Machine floats are modelled as exact rationals: the
claims under study concern control flow (which indices expire, which columns
are written), not rounding.  The curve collaborator (CompactSpline), the range
collaborator (Range) and the small header-only accessors are not under src/;
they are modelled from the spec, and each such definition is marked
`Modelled from the spec:` in its doc comment.  The scratch buffer that
UpdateCubicXs_TwoSteps reinterprets as a byte mask is modelled at the byte
level (little-endian uint16 entries, as on the NEON/SSE targets this code is
written for), because the aliasing between the index output and the mask is
essential to that function's behaviour.
-/

namespace Motive

/-- Modelled from the spec: the output-range collaborator's interval type
(range.h is not under src), with a start and an end. -/
structure Range where
  start : ℚ
  end_ : ℚ
deriving DecidableEq

/-- Length of a range: end minus start. -/
def Range.Length (r : Range) : ℚ := r.end_ - r.start

/-- Modelled from the spec: Clamp brings a value into the closed interval. -/
def Range.Clamp (r : Range) (v : ℚ) : ℚ := max r.start (min r.end_ v)

/-- Modelled from the spec: Contains, used only for invariant checking. -/
def Range.Contains (r : Range) (v : ℚ) : Prop := r.start ≤ v ∧ v ≤ r.end_

instance (r : Range) (v : ℚ) : Decidable (Range.Contains r v) := by
  unfold Range.Contains; infer_instance

/-- Modelled from the spec: ModularAdjustment(value, interval) is the additive
adjustment, a multiple of the interval length, such that value + adjustment
lies in the half-open interval from start to end. -/
def Range.ModularAdjustment (r : Range) (v : ℚ) : ℚ :=
  -(r.Length * ((⌊(v - r.start) / r.Length⌋ : ℤ) : ℚ))

/-- Modelled from the spec: NormalizeWildValue brings an arbitrary value into
the range once (used at segment load time on the cubic's constant term). -/
def Range.NormalizeWildValue (r : Range) (v : ℚ) : ℚ :=
  v + r.ModularAdjustment v

/-- Per-slot output range descriptor (YRange in the source): the valid interval
and whether it is modular.  The source stores the flag as a 32-bit mask
(kMask32True / kMask32False); it is modelled as the Bool it encodes. -/
structure YRange where
  valid_y : Range
  modular_arithmetic : Bool
deriving DecidableEq

/-- Default YRange, as produced by resizing the y_ranges_ column.  The spec
describes a fresh slot's range as an identity (non-clamping) output range; an
unbounded interval is not representable over the rationals, so the default is
modelled as the degenerate non-modular interval.  No theorem below observes
this value: it only serves as the out-of-range fallback of getD reads and as
the fill value of resizes, and every slot whose output matters has its range
set explicitly. -/
def yRangeDefault : YRange := ⟨⟨0, 0⟩, false⟩

/-- Modelled from the spec: the 4-coefficient cubic polynomial of one segment
(cubic_curve.h is not under src).  Field ci is the coefficient of x^i. -/
structure CubicCurve where
  c0 : ℚ
  c1 : ℚ
  c2 : ℚ
  c3 : ℚ
deriving DecidableEq

/-- Modelled from the spec: evaluate the cubic at a local offset. -/
def CubicCurve.Evaluate (c : CubicCurve) (x : ℚ) : ℚ :=
  c.c0 + c.c1 * x + c.c2 * x * x + c.c3 * x * x * x

/-- Zero cubic, the default-constructed CubicCurve. -/
def cubicZero : CubicCurve := ⟨0, 0, 0, 0⟩

/-- Segment identifier (CompactSplineIndex in the source): either a real
segment number, or one of the sentinels kInvalidSplineIndex (nothing loaded
yet) and kAfterSplineIndex (past the end of the curve). -/
inductive SplineIdx where
  | seg : ℕ → SplineIdx
  | invalid : SplineIdx
  | afterSpline : SplineIdx
deriving DecidableEq

/-- Modelled from the spec: one segment of a curve: its start position, its
valid length, and the fitted 4-coefficient cubic (FitSegment's result). -/
structure SplineSeg where
  xstart : ℚ
  xlen : ℚ
  cubic : CubicCurve
deriving DecidableEq

/-- Default segment used for out-of-range reads. -/
def segDefault : SplineSeg := ⟨0, 0, cubicZero⟩

/-- Modelled from the spec: the borrowed curve collaborator (CompactSpline),
a sequence of segments. -/
structure CompactSpline where
  segs : List SplineSeg
deriving DecidableEq

/-- Segment i covers position x when x lies in the segment's interval. -/
def coversX (sp : CompactSpline) (i : ℕ) (x : ℚ) : Prop :=
  (sp.segs.getD i segDefault).xstart ≤ x ∧
    x ≤ (sp.segs.getD i segDefault).xstart + (sp.segs.getD i segDefault).xlen

instance (sp : CompactSpline) (i : ℕ) (x : ℚ) : Decidable (coversX sp i x) := by
  unfold coversX; infer_instance

/-- Modelled from the spec: IndexForX(x, start_index) searches forward only,
from start_index, for a segment covering x; when none exists it reports
kAfterSplineIndex. -/
def IndexForX (sp : CompactSpline) (x : ℚ) (start_index : ℕ) : SplineIdx :=
  match (List.range' start_index (sp.segs.length - start_index)).find?
      (fun i => decide (coversX sp i x)) with
  | some i => SplineIdx.seg i
  | none => SplineIdx.afterSpline

/-- Modelled from the spec: the index the forward search starts from, namely
one past the currently loaded segment.  In the source this is the uint16
expression s.x_index + 1: kInvalidSplineIndex wraps around to 0 (a fresh slot
searches from the start), and from kAfterSplineIndex no segment is ever found
forward, modelled by starting past the last segment. -/
def searchStart (sp : CompactSpline) (idx : SplineIdx) : ℕ :=
  match idx with
  | SplineIdx.invalid => 0
  | SplineIdx.seg i => i + 1
  | SplineIdx.afterSpline => sp.segs.length

/-- Modelled from the spec: start position of the whole curve. -/
def StartX (sp : CompactSpline) : ℚ := (sp.segs.headD segDefault).xstart

/-- Modelled from the spec: end position of the whole curve. -/
def EndX (sp : CompactSpline) : ℚ :=
  match sp.segs.getLast? with
  | some s => s.xstart + s.xlen
  | none => 0

/-- Modelled from the spec: TotalSpan of the curve, used for wraparound. -/
def LengthX (sp : CompactSpline) : ℚ := EndX sp - StartX sp

/-- Modelled from the spec: RangeX(segment) is the segment's interval. -/
def RangeX (sp : CompactSpline) (idx : SplineIdx) : Range :=
  match idx with
  | SplineIdx.seg i =>
      ⟨(sp.segs.getD i segDefault).xstart,
       (sp.segs.getD i segDefault).xstart + (sp.segs.getD i segDefault).xlen⟩
  | SplineIdx.afterSpline => ⟨EndX sp, EndX sp⟩
  | SplineIdx.invalid => ⟨0, 0⟩

/-- Modelled from the spec: CreateCubicInit followed by CubicCurve Init fits
the cubic for a segment; the fit's result is the segment's stored cubic. -/
def CreateCubicInit (sp : CompactSpline) (idx : SplineIdx) : CubicCurve :=
  match idx with
  | SplineIdx.seg i => (sp.segs.getD i segDefault).cubic
  | _ => cubicZero

/-- Per-slot playback source (Source in the source file): the borrowed curve
reference (none means inert), the loaded segment id, and the repeat flag. -/
structure Source where
  spline : Option CompactSpline
  x_index : SplineIdx
  rep : Bool
deriving DecidableEq

/-- Default Source: modelled from the spec, a fresh slot is inert (null curve
reference, no segment loaded, no repeat). -/
def sourceDefault : Source := ⟨none, SplineIdx.invalid, false⟩

/-- Playback parameters handed to SetSpline. -/
structure SplinePlayback where
  spline : Option CompactSpline
  start_x : ℚ
  rep : Bool
deriving DecidableEq

/-- The structure-of-arrays state of the BulkSplineEvaluator: one entry per
slot in each parallel column. -/
structure EvalState where
  sources : List Source
  y_ranges : List YRange
  cubic_xs : List ℚ
  cubic_x_ends : List ℚ
  cubics : List CubicCurve
  ys : List ℚ
deriving DecidableEq

/-- NumIndices: the number of slots (all columns share this length). -/
def NumIndices (st : EvalState) : ℕ := st.sources.length

/-- All parallel columns have the same length. -/
def WellFormed (st : EvalState) : Prop :=
  st.y_ranges.length = st.sources.length ∧
  st.cubic_xs.length = st.sources.length ∧
  st.cubic_x_ends.length = st.sources.length ∧
  st.cubics.length = st.sources.length ∧
  st.ys.length = st.sources.length

instance (st : EvalState) : Decidable (WellFormed st) := by
  unfold WellFormed; infer_instance

/-- Resize of one column, as std vector resize: keep the first n entries,
fill new entries with the given default. -/
def resizeD {α : Type} (l : List α) (n : ℕ) (d : α) : List α :=
  l.take n ++ List.replicate (n - l.length) d

/-- SetNumIndices: resize every parallel column to num_indices; the numeric
columns are filled with 0 and the struct columns default-construct. -/
def SetNumIndices (st : EvalState) (num_indices : ℕ) : EvalState :=
  ⟨resizeD st.sources num_indices sourceDefault,
   resizeD st.y_ranges num_indices yRangeDefault,
   resizeD st.cubic_xs num_indices 0,
   resizeD st.cubic_x_ends num_indices 0,
   resizeD st.cubics num_indices cubicZero,
   resizeD st.ys num_indices 0⟩

/-- MoveIndex: copy every column's entry from old_index to new_index. -/
def MoveIndex (st : EvalState) (old_index new_index : ℕ) : EvalState :=
  ⟨st.sources.set new_index (st.sources.getD old_index sourceDefault),
   st.y_ranges.set new_index (st.y_ranges.getD old_index yRangeDefault),
   st.cubic_xs.set new_index (st.cubic_xs.getD old_index 0),
   st.cubic_x_ends.set new_index (st.cubic_x_ends.getD old_index 0),
   st.cubics.set new_index (st.cubics.getD old_index cubicZero),
   st.ys.set new_index (st.ys.getD old_index 0)⟩

/-- SetYRange: overwrite a slot's output-range descriptor. -/
def SetYRange (st : EvalState) (index : ℕ) (valid_y : Range)
    (modular_arithmetic : Bool) : EvalState :=
  { st with y_ranges := st.y_ranges.set index ⟨valid_y, modular_arithmetic⟩ }

/-- Valid: the index is in range and the slot's curve reference is non-null. -/
def Valid (st : EvalState) (index : ℕ) : Bool :=
  decide (index < NumIndices st) &&
    (st.sources.getD index sourceDefault).spline.isSome

/-- Tail of InitCubic after the segment has been resolved: return unchanged if
the resolved segment is the loaded one; otherwise store the new segment id,
set the local offset and segment length from the segment's interval, refit the
cubic, and normalize its constant term when the output range is modular. -/
def loadSegment (st : EvalState) (index : ℕ) (s : Source) (sp : CompactSpline)
    (new_start_x : ℚ) (x_index : SplineIdx) : EvalState :=
  if s.x_index = x_index then st
  else
    let x_range := RangeX sp x_index
    let c_init := CreateCubicInit sp x_index
    let r := st.y_ranges.getD index yRangeDefault
    let c :=
      if r.modular_arithmetic then
        { c_init with c0 := r.valid_y.NormalizeWildValue c_init.c0 }
      else c_init
    { st with
      sources := st.sources.set index { s with x_index := x_index },
      cubic_xs := st.cubic_xs.set index (new_start_x - x_range.start),
      cubic_x_ends := st.cubic_x_ends.set index x_range.Length,
      cubics := st.cubics.set index c }

/-- InitCubic: do nothing when the slot has no spline; otherwise resolve the
segment for start_x by searching forward from one past the loaded segment,
falling back to a wraparound search from 0 at start_x minus the curve's span
when the forward search runs off the end and repeat is set; then load it. -/
def InitCubic (st : EvalState) (index : ℕ) (start_x : ℚ) : EvalState :=
  match (st.sources.getD index sourceDefault).spline with
  | none => st
  | some sp =>
      let s := st.sources.getD index sourceDefault
      let i1 := IndexForX sp start_x (searchStart sp s.x_index)
      if s.rep = true ∧ i1 = SplineIdx.afterSpline then
        let nx := start_x - LengthX sp
        loadSegment st index s sp nx (IndexForX sp nx 0)
      else
        loadSegment st index s sp start_x i1

/-- EvaluateIndex: evaluate the slot's cubic at its local offset, then clamp
(non-modular) or add the modular adjustment to both the value and the cubic's
constant coefficient, and store the result in the ys column. -/
def EvaluateIndex (st : EvalState) (index : ℕ) : EvalState :=
  let c := st.cubics.getD index cubicZero
  let y := c.Evaluate (st.cubic_xs.getD index 0)
  let r := st.y_ranges.getD index yRangeDefault
  if r.modular_arithmetic then
    let adjustment := r.valid_y.ModularAdjustment y
    { st with
      cubics := st.cubics.set index { c with c0 := c.c0 + adjustment },
      ys := st.ys.set index (y + adjustment) }
  else
    { st with ys := st.ys.set index (r.valid_y.Clamp y) }

/-- EvaluateCubics_C: evaluate every index, in order. -/
def EvaluateCubics_C (st : EvalState) : EvalState :=
  (List.range (NumIndices st)).foldl EvaluateIndex st

/-- X accessor: modelled from the spec, CurrentPosition is derived as the
loaded segment's interval start plus the local offset (the accessor lives in
the header, which is not under src); an inert slot contributes no segment
start. -/
def X (st : EvalState) (index : ℕ) : ℚ :=
  (match (st.sources.getD index sourceDefault).spline with
   | none => 0
   | some sp => (RangeX sp (st.sources.getD index sourceDefault).x_index).start) +
    st.cubic_xs.getD index 0

/-- First step of SetSpline: bind the curve reference, reset the segment id
to kInvalidSplineIndex and set the repeat flag. -/
def setSplineSource (st : EvalState) (index : ℕ)
    (playback : SplinePlayback) : EvalState :=
  { st with sources := st.sources.set index
                         ⟨playback.spline, SplineIdx.invalid, playback.rep⟩ }

/-- SetSpline: bind the curve reference, reset the segment id to
kInvalidSplineIndex, set the repeat flag, then immediately InitCubic at the
playback start position and evaluate the single index. -/
def SetSpline (st : EvalState) (index : ℕ) (playback : SplinePlayback) :
    EvalState :=
  EvaluateIndex
    (InitCubic (setSplineSource st index playback) index playback.start_x)
    index

/-- Add delta_x to every cursor. -/
def advanceXs (delta_x : ℚ) (st : EvalState) : EvalState :=
  { st with cubic_xs := st.cubic_xs.map (fun x => x + delta_x) }

/-- UpdateCubicXs_OneStep: add delta_x to each cursor and record, in one
serial pass, the indices whose cursor is now strictly past its segment end. -/
def UpdateCubicXs_OneStep (delta_x : ℚ) (st : EvalState) :
    EvalState × List ℕ :=
  let st1 := advanceXs delta_x st
  (st1, (List.range (NumIndices st)).filter (fun i =>
    decide (st1.cubic_xs.getD i 0 > st1.cubic_x_ends.getD i 0)))

/-- UpdateCubicXsAndGetMask_C: add delta_x to each cursor and produce the byte
mask: 0xFF where the cursor passed its segment end, 0x00 elsewhere. -/
def UpdateCubicXsAndGetMask_C (delta_x : ℚ) (st : EvalState) :
    EvalState × List ℕ :=
  let st1 := advanceXs delta_x st
  (st1, (List.range (NumIndices st)).map (fun i =>
    if st1.cubic_xs.getD i 0 > st1.cubic_x_ends.getD i 0 then 255 else 0))

/-- Read one byte of the scratch buffer. -/
def readByte (buf : List ℕ) (i : ℕ) : ℕ := buf.getD i 0

/-- Write one byte of the scratch buffer. -/
def writeByte (buf : List ℕ) (i v : ℕ) : List ℕ := buf.set i v

/-- Write entry j of the Index (uint16, little-endian) array that shares the
scratch buffer. -/
def writeIndexLE (buf : List ℕ) (j v : ℕ) : List ℕ :=
  writeByte (writeByte buf (2 * j) (v % 256)) (2 * j + 1) (v / 256 % 256)

/-- Read entry j of the Index (uint16, little-endian) array back. -/
def readIndexLE (buf : List ℕ) (j : ℕ) : ℕ :=
  readByte buf (2 * j) + 256 * readByte buf (2 * j + 1)

/-- Store a list of bytes into the buffer at consecutive offsets. -/
def writeBytesFrom (buf : List ℕ) (off : ℕ) : List ℕ → List ℕ
  | [] => buf
  | b :: rest => writeBytesFrom (writeByte buf off b) (off + 1) rest

/-- One iteration of ConvertMaskToIndices: write i unconditionally into the
index slot num_indices of the shared buffer, then read mask byte i and bump
num_indices when it is non-zero.  The write happens first, as in the source. -/
def convertStep (maskOff : ℕ) (s : List ℕ × ℕ) (i : ℕ) : List ℕ × ℕ :=
  let buf1 := writeIndexLE s.1 s.2 i
  if readByte buf1 (maskOff + i) ≠ 0 then (buf1, s.2 + 1) else (buf1, s.2)

/-- ConvertMaskToIndices: for each non-zero mask byte, append the index to the
output array that occupies the same buffer; returns the final buffer and the
number of indices produced. -/
def ConvertMaskToIndices (maskOff len : ℕ) (buf : List ℕ) : List ℕ × ℕ :=
  (List.range len).foldl (convertStep maskOff) (buf, 0)

/-- UpdateCubicXs_TwoSteps: write the expiry mask into the last half of the
scratch buffer (byte offset 2 * (n / 2) of the uint16 index array), then
compact the mask into indices in the front of the same buffer.  Returns the
advanced state, the final buffer and the index count. -/
def UpdateCubicXs_TwoSteps (delta_x : ℚ) (st : EvalState) (buf : List ℕ) :
    EvalState × List ℕ × ℕ :=
  let n := NumIndices st
  let maskOff := 2 * (n / 2)
  let p := UpdateCubicXsAndGetMask_C delta_x st
  let buf1 := writeBytesFrom buf maskOff p.2
  let q := ConvertMaskToIndices maskOff n buf1
  (p.1, q.1, q.2)

/-- The expired-index list UpdateCubicXs_TwoSteps leaves in the buffer. -/
def twoStepsIndices (buf : List ℕ) (cnt : ℕ) : List ℕ :=
  (List.range cnt).map (readIndexLE buf)

/-- AdvanceFrame: advance every cursor (default dispatch runs the one-step C
path), re-initialize each expired index at its current global position, then
re-evaluate every cubic. -/
def AdvanceFrame (delta_x : ℚ) (st : EvalState) : EvalState :=
  let p := UpdateCubicXs_OneStep delta_x st
  let st2 := p.2.foldl (fun s i => InitCubic s i (X s i)) p.1
  EvaluateCubics_C st2

/-- The expired-index list gathered inside AdvanceFrame. -/
def AdvanceFrameExpired (delta_x : ℚ) (st : EvalState) : List ℕ :=
  (UpdateCubicXs_OneStep delta_x st).2

/-! Helper lemmas about list reads and writes. -/

theorem getD_set_self {α : Type} (l : List α) (i : ℕ) (a d : α)
    (h : i < l.length) : (l.set i a).getD i d = a := by
  simp [List.getD_eq_getElem?_getD, List.getElem?_set_self h]

theorem getD_set_ne {α : Type} (l : List α) {i j : ℕ} (a : α) (d : α)
    (h : i ≠ j) : (l.set i a).getD j d = l.getD j d := by
  simp [List.getD_eq_getElem?_getD, List.getElem?_set_ne h]

theorem getD_map_lt {α β : Type} (f : α → β) (l : List α) (i : ℕ)
    (d : β) (d' : α) (h : i < l.length) :
    (l.map f).getD i d = f (l.getD i d') := by
  simp [List.getD_eq_getElem?_getD, List.getElem?_map,
    List.getElem?_eq_getElem h]

theorem getD_range_map_lt {β : Type} (f : ℕ → β) (n i : ℕ) (d : β)
    (h : i < n) : ((List.range n).map f).getD i d = f i := by
  rw [getD_map_lt f (List.range n) i d 0 (by simpa using h)]
  rw [List.getD_eq_getElem?_getD, List.getElem?_range h]
  rfl

theorem mem_oneStep_range {n i : ℕ} (p : ℕ → Bool) :
    i ∈ (List.range n).filter p ↔ i < n ∧ p i = true := by
  simp [List.mem_filter]

/-! Concrete states used as witnesses and counterexamples. -/

/-- A two-slot state whose cursors both sit exactly at their segment ends, so
that any positive delta expires both slots. -/
def stateBothExpire : EvalState :=
  ⟨[sourceDefault, sourceDefault], [yRangeDefault, yRangeDefault],
   [0, 0], [0, 0], [cubicZero, cubicZero], [0, 0]⟩

/-- C1: counterexample / failing-input evaluation.  On a two-slot store where
both cursors pass their segment ends, the one-step advancer reports both
indices but the mask-then-compact advancer reports only one: inside
ConvertMaskToIndices the unconditional write of indices[1] = 1 lands on the
byte that holds mask byte 1 (the mask shares the last half of the scratch
buffer) before that byte is read, zeroing it.  The cursors themselves agree.
This contradicts the verification-mode assertions in the source (which assert
the two counts and index lists are identical) and the source's own comment
that placing the mask in the last half makes the aliasing safe. -/
theorem updateCubicXs_twoSteps_drops_expired_index :
    (UpdateCubicXs_OneStep 1 stateBothExpire).2 = [0, 1] ∧
    (UpdateCubicXs_TwoSteps 1 stateBothExpire [0, 0, 0, 0]).2.2 = 1 ∧
    twoStepsIndices (UpdateCubicXs_TwoSteps 1 stateBothExpire [0, 0, 0, 0]).2.1
      (UpdateCubicXs_TwoSteps 1 stateBothExpire [0, 0, 0, 0]).2.2 = [0] ∧
    (UpdateCubicXs_TwoSteps 1 stateBothExpire [0, 0, 0, 0]).1.cubic_xs =
      (UpdateCubicXs_OneStep 1 stateBothExpire).1.cubic_xs := by
  refine ⟨?_, ?_, ?_, ?_⟩ <;>
    norm_num [UpdateCubicXs_OneStep, UpdateCubicXs_TwoSteps,
      UpdateCubicXsAndGetMask_C, advanceXs, NumIndices, stateBothExpire,
      List.range_succ, writeBytesFrom, ConvertMaskToIndices, convertStep,
      writeIndexLE, writeByte, readByte, readIndexLE, twoStepsIndices,
      yRangeDefault, sourceDefault, cubicZero]

/-- The advanced cursor of one slot after the one-step bulk advance. -/
theorem oneStep_xs_getD (st : EvalState) (delta_x : ℚ) (i : ℕ) (d : ℚ)
    (hi : i < st.cubic_xs.length) :
    (UpdateCubicXs_OneStep delta_x st).1.cubic_xs.getD i d =
      st.cubic_xs.getD i d + delta_x := by
  show (st.cubic_xs.map (fun x => x + delta_x)).getD i d = _
  rw [getD_map_lt (fun x => x + delta_x) st.cubic_xs i d d hi]

/-- Membership in the one-step expired list, characterised by the cursor
passing the segment end. -/
theorem oneStep_mem_iff (st : EvalState) (delta_x : ℚ) (i : ℕ)
    (hxs : st.cubic_xs.length = st.sources.length) (hi : i < NumIndices st) :
    i ∈ (UpdateCubicXs_OneStep delta_x st).2 ↔
      st.cubic_xs.getD i 0 + delta_x > st.cubic_x_ends.getD i 0 := by
  have hilt : i < st.cubic_xs.length := by rw [hxs]; exact hi
  have hadv := oneStep_xs_getD st delta_x i 0 hilt
  rw [show (UpdateCubicXs_OneStep delta_x st).2 =
    (List.range (NumIndices st)).filter (fun j =>
      decide ((advanceXs delta_x st).cubic_xs.getD j 0 >
        (advanceXs delta_x st).cubic_x_ends.getD j 0)) from rfl]
  rw [mem_oneStep_range]
  have hends : (advanceXs delta_x st).cubic_x_ends = st.cubic_x_ends := rfl
  rw [hends]
  constructor
  · rintro ⟨-, hp⟩
    have := of_decide_eq_true hp
    rwa [show (advanceXs delta_x st).cubic_xs.getD i 0 =
      (UpdateCubicXs_OneStep delta_x st).1.cubic_xs.getD i 0 from rfl,
      hadv] at this
  · intro hgt
    exact ⟨by simpa using hi, decide_eq_true (by rwa [show
      (advanceXs delta_x st).cubic_xs.getD i 0 =
        (UpdateCubicXs_OneStep delta_x st).1.cubic_xs.getD i 0 from rfl, hadv])⟩

/-- C2: the one-step bulk advance adds the delta to every slot's cursor
exactly once (whether or not the slot has a curve), an index is in the
returned expired list iff its new cursor strictly exceeds its segment length,
and the byte mask of the mask-producing variant is 0xFF at exactly those
indices. -/
theorem advance_expiry_spec (st : EvalState) (delta_x : ℚ) (i : ℕ)
    (hwf : WellFormed st) (hi : i < NumIndices st) :
    (UpdateCubicXs_OneStep delta_x st).1.cubic_xs.getD i 0 =
      st.cubic_xs.getD i 0 + delta_x ∧
    (i ∈ (UpdateCubicXs_OneStep delta_x st).2 ↔
      st.cubic_xs.getD i 0 + delta_x > st.cubic_x_ends.getD i 0) ∧
    (UpdateCubicXsAndGetMask_C delta_x st).2.getD i 0 =
      (if st.cubic_xs.getD i 0 + delta_x > st.cubic_x_ends.getD i 0
       then 255 else 0) := by
  obtain ⟨-, hxs, -, -, -⟩ := hwf
  have hilt : i < st.cubic_xs.length := by rw [hxs]; exact hi
  have hadv := oneStep_xs_getD st delta_x i 0 hilt
  refine ⟨hadv, oneStep_mem_iff st delta_x i hxs hi, ?_⟩
  rw [show (UpdateCubicXsAndGetMask_C delta_x st).2 =
    (List.range (NumIndices st)).map (fun j =>
      if (advanceXs delta_x st).cubic_xs.getD j 0 >
          (advanceXs delta_x st).cubic_x_ends.getD j 0 then 255 else 0) from rfl]
  rw [getD_range_map_lt _ _ _ _ hi]
  have hends : (advanceXs delta_x st).cubic_x_ends = st.cubic_x_ends := rfl
  rw [hends, show (advanceXs delta_x st).cubic_xs.getD i 0 =
    (UpdateCubicXs_OneStep delta_x st).1.cubic_xs.getD i 0 from rfl, hadv]

/-- C2 witness: the spec evaluated on a concrete one-slot store. -/
theorem advance_expiry_spec_witness :
    WellFormed stateBothExpire ∧ 0 < NumIndices stateBothExpire ∧
    ((UpdateCubicXs_OneStep 1 stateBothExpire).1.cubic_xs.getD 0 0 =
      stateBothExpire.cubic_xs.getD 0 0 + 1 ∧
    (0 ∈ (UpdateCubicXs_OneStep 1 stateBothExpire).2 ↔
      stateBothExpire.cubic_xs.getD 0 0 + 1 >
        stateBothExpire.cubic_x_ends.getD 0 0) ∧
    (UpdateCubicXsAndGetMask_C 1 stateBothExpire).2.getD 0 0 =
      (if stateBothExpire.cubic_xs.getD 0 0 + 1 >
          stateBothExpire.cubic_x_ends.getD 0 0 then 255 else 0)) :=
  ⟨by decide, by decide, advance_expiry_spec stateBothExpire 1 0 (by decide) (by decide)⟩

/-- Length after a column resize. -/
theorem length_resizeD {α : Type} (l : List α) (n : ℕ) (d : α) :
    (resizeD l n d).length = n := by
  simp only [resizeD, List.length_append, List.length_take,
    List.length_replicate]
  omega

/-- A read of a resized column at or past the old length yields the fill
value, whether the position is a fresh slot or out of range. -/
theorem getD_resizeD_new {α : Type} (l : List α) (n i : ℕ) (d : α)
    (h : l.length ≤ i) : (resizeD l n d).getD i d = d := by
  rw [List.getD_eq_getElem?_getD, resizeD, List.getElem?_append_right, List.getElem?_replicate]
  · split <;> rfl
  · exact le_trans (by rw [List.length_take]; exact min_le_right n l.length) h

/-- C7: MoveIndex copies every column's entry from old_index to new_index, so
the destination slot's stored state afterwards equals the source slot's
pre-move state; the source slot is not cleared and every slot other than
new_index is unchanged in every column. -/
theorem moveIndex_spec (st : EvalState) (old_index new_index : ℕ)
    (hwf : WellFormed st) (hnew : new_index < NumIndices st) :
    ((MoveIndex st old_index new_index).sources.getD new_index sourceDefault =
        st.sources.getD old_index sourceDefault ∧
     (MoveIndex st old_index new_index).y_ranges.getD new_index yRangeDefault =
        st.y_ranges.getD old_index yRangeDefault ∧
     (MoveIndex st old_index new_index).cubic_xs.getD new_index 0 =
        st.cubic_xs.getD old_index 0 ∧
     (MoveIndex st old_index new_index).cubic_x_ends.getD new_index 0 =
        st.cubic_x_ends.getD old_index 0 ∧
     (MoveIndex st old_index new_index).cubics.getD new_index cubicZero =
        st.cubics.getD old_index cubicZero ∧
     (MoveIndex st old_index new_index).ys.getD new_index 0 =
        st.ys.getD old_index 0) ∧
    ∀ j, j ≠ new_index →
     ((MoveIndex st old_index new_index).sources.getD j sourceDefault =
        st.sources.getD j sourceDefault ∧
      (MoveIndex st old_index new_index).y_ranges.getD j yRangeDefault =
        st.y_ranges.getD j yRangeDefault ∧
      (MoveIndex st old_index new_index).cubic_xs.getD j 0 =
        st.cubic_xs.getD j 0 ∧
      (MoveIndex st old_index new_index).cubic_x_ends.getD j 0 =
        st.cubic_x_ends.getD j 0 ∧
      (MoveIndex st old_index new_index).cubics.getD j cubicZero =
        st.cubics.getD j cubicZero ∧
      (MoveIndex st old_index new_index).ys.getD j 0 = st.ys.getD j 0) := by
  obtain ⟨h1, h2, h3, h4, h5⟩ := hwf
  constructor
  · exact ⟨getD_set_self _ _ _ _ hnew,
      getD_set_self _ _ _ _ (by rw [h1]; exact hnew),
      getD_set_self _ _ _ _ (by rw [h2]; exact hnew),
      getD_set_self _ _ _ _ (by rw [h3]; exact hnew),
      getD_set_self _ _ _ _ (by rw [h4]; exact hnew),
      getD_set_self _ _ _ _ (by rw [h5]; exact hnew)⟩
  · intro j hj
    exact ⟨getD_set_ne _ _ _ (fun h => hj h.symm),
      getD_set_ne _ _ _ (fun h => hj h.symm),
      getD_set_ne _ _ _ (fun h => hj h.symm),
      getD_set_ne _ _ _ (fun h => hj h.symm),
      getD_set_ne _ _ _ (fun h => hj h.symm),
      getD_set_ne _ _ _ (fun h => hj h.symm)⟩

/-- C7 witness: MoveIndex evaluated on a concrete two-slot store. -/
theorem moveIndex_spec_witness :
    WellFormed stateBothExpire ∧ 1 < NumIndices stateBothExpire ∧
    (((MoveIndex stateBothExpire 0 1).sources.getD 1 sourceDefault =
        stateBothExpire.sources.getD 0 sourceDefault ∧
      (MoveIndex stateBothExpire 0 1).y_ranges.getD 1 yRangeDefault =
        stateBothExpire.y_ranges.getD 0 yRangeDefault ∧
      (MoveIndex stateBothExpire 0 1).cubic_xs.getD 1 0 =
        stateBothExpire.cubic_xs.getD 0 0 ∧
      (MoveIndex stateBothExpire 0 1).cubic_x_ends.getD 1 0 =
        stateBothExpire.cubic_x_ends.getD 0 0 ∧
      (MoveIndex stateBothExpire 0 1).cubics.getD 1 cubicZero =
        stateBothExpire.cubics.getD 0 cubicZero ∧
      (MoveIndex stateBothExpire 0 1).ys.getD 1 0 =
        stateBothExpire.ys.getD 0 0) ∧
     ∀ j, j ≠ 1 →
      ((MoveIndex stateBothExpire 0 1).sources.getD j sourceDefault =
         stateBothExpire.sources.getD j sourceDefault ∧
       (MoveIndex stateBothExpire 0 1).y_ranges.getD j yRangeDefault =
         stateBothExpire.y_ranges.getD j yRangeDefault ∧
       (MoveIndex stateBothExpire 0 1).cubic_xs.getD j 0 =
         stateBothExpire.cubic_xs.getD j 0 ∧
       (MoveIndex stateBothExpire 0 1).cubic_x_ends.getD j 0 =
         stateBothExpire.cubic_x_ends.getD j 0 ∧
       (MoveIndex stateBothExpire 0 1).cubics.getD j cubicZero =
         stateBothExpire.cubics.getD j cubicZero ∧
       (MoveIndex stateBothExpire 0 1).ys.getD j 0 =
         stateBothExpire.ys.getD j 0)) :=
  ⟨by decide, by decide, moveIndex_spec stateBothExpire 0 1 (by decide) (by decide)⟩

/-- C8: SetNumIndices makes every parallel column have length n; a slot at or
past the old length reads as the inert default, so Valid is false on every
fresh slot; and Valid holds exactly when the index is below NumIndices and
the slot's curve reference is non-null. -/
theorem setNumIndices_spec (st : EvalState) (n i : ℕ)
    (hold : st.sources.length ≤ i) :
    WellFormed (SetNumIndices st n) ∧ NumIndices (SetNumIndices st n) = n ∧
    Valid (SetNumIndices st n) i = false ∧
    ∀ j, Valid (SetNumIndices st n) j =
      (decide (j < n) &&
        ((SetNumIndices st n).sources.getD j sourceDefault).spline.isSome) := by
  refine ⟨?_, ?_, ?_, ?_⟩
  · exact ⟨by simp [SetNumIndices, length_resizeD],
      by simp [SetNumIndices, length_resizeD],
      by simp [SetNumIndices, length_resizeD],
      by simp [SetNumIndices, length_resizeD],
      by simp [SetNumIndices, length_resizeD]⟩
  · show (resizeD st.sources n sourceDefault).length = n
    exact length_resizeD _ _ _
  · show (decide (i < (resizeD st.sources n sourceDefault).length) &&
      ((resizeD st.sources n sourceDefault).getD i sourceDefault).spline.isSome) = false
    rw [getD_resizeD_new _ _ _ _ hold]
    simp [sourceDefault]
  · intro j
    show (decide (j < (resizeD st.sources n sourceDefault).length) &&
      ((SetNumIndices st n).sources.getD j sourceDefault).spline.isSome) = _
    rw [length_resizeD]

/-- C8 witness: growing a two-slot store to three slots leaves slot 2 invalid. -/
theorem setNumIndices_spec_witness :
    stateBothExpire.sources.length ≤ 2 ∧
    (WellFormed (SetNumIndices stateBothExpire 3) ∧
     NumIndices (SetNumIndices stateBothExpire 3) = 3 ∧
     Valid (SetNumIndices stateBothExpire 3) 2 = false ∧
     ∀ j, Valid (SetNumIndices stateBothExpire 3) j =
       (decide (j < 3) &&
         ((SetNumIndices stateBothExpire 3).sources.getD j
            sourceDefault).spline.isSome)) :=
  ⟨by decide, setNumIndices_spec stateBothExpire 3 2 (by decide)⟩

/-- The empty store. -/
def stateEmpty : EvalState := ⟨[], [], [], [], [], []⟩

/-- C9: on a store with zero indices, AdvanceFrame is a no-op that reads and
writes no slot state, the expired list is empty, and the mask-then-compact
path never touches the (empty) scratch buffer. -/
theorem advanceFrame_empty_spec (st : EvalState) (delta_x : ℚ)
    (hwf : WellFormed st) (h0 : NumIndices st = 0) :
    AdvanceFrame delta_x st = st ∧ AdvanceFrameExpired delta_x st = [] ∧
    UpdateCubicXs_TwoSteps delta_x st [] = (st, [], 0) := by
  obtain ⟨s, yr, xs, xe, cb, ys⟩ := st
  obtain ⟨h1, h2, h3, h4, h5⟩ := hwf
  have hs : s = [] := List.length_eq_zero.mp h0
  subst hs
  simp only [NumIndices, List.length_nil] at h1 h2 h3 h4 h5 ⊢
  have hyr : yr = [] := List.length_eq_zero.mp h1
  have hxs : xs = [] := List.length_eq_zero.mp h2
  have hxe : xe = [] := List.length_eq_zero.mp h3
  have hcb : cb = [] := List.length_eq_zero.mp h4
  have hys : ys = [] := List.length_eq_zero.mp h5
  subst hyr hxs hxe hcb hys
  refine ⟨rfl, rfl, rfl⟩

/-- C9 witness: the empty store with a concrete delta. -/
theorem advanceFrame_empty_spec_witness :
    WellFormed stateEmpty ∧ NumIndices stateEmpty = 0 ∧
    (AdvanceFrame 1 stateEmpty = stateEmpty ∧
     AdvanceFrameExpired 1 stateEmpty = [] ∧
     UpdateCubicXs_TwoSteps 1 stateEmpty [] = (stateEmpty, [], 0)) :=
  ⟨by decide, by decide, advanceFrame_empty_spec stateEmpty 1 (by decide) (by decide)⟩

/-! Facts about the modular adjustment. -/

/-- The modular adjustment lands the value in the half-open valid interval. -/
theorem modularAdjustment_lands (r : Range) (v : ℚ) (h : 0 < r.Length) :
    r.start ≤ v + r.ModularAdjustment v ∧
      v + r.ModularAdjustment v < r.end_ := by
  have hfl := Int.floor_le ((v - r.start) / r.Length)
  have hlt := Int.lt_floor_add_one ((v - r.start) / r.Length)
  have h1 : (⌊(v - r.start) / r.Length⌋ : ℚ) * r.Length ≤ v - r.start :=
    (le_div_iff₀ h).mp hfl
  have h2 : v - r.start < ((⌊(v - r.start) / r.Length⌋ : ℚ) + 1) * r.Length :=
    (div_lt_iff₀ h).mp hlt
  have hL : r.end_ = r.start + r.Length := by
    unfold Range.Length; ring
  unfold Range.ModularAdjustment
  constructor <;> nlinarith [h1, h2]

/-- A value already inside the half-open valid interval needs no adjustment. -/
theorem modularAdjustment_eq_zero (r : Range) (v : ℚ) (h : 0 < r.Length)
    (h1 : r.start ≤ v) (h2 : v < r.end_) : r.ModularAdjustment v = 0 := by
  have hfl : ⌊(v - r.start) / r.Length⌋ = 0 := by
    rw [Int.floor_eq_zero_iff]
    refine ⟨div_nonneg (by linarith) h.le, ?_⟩
    rw [div_lt_one h]
    have : r.end_ = r.start + r.Length := by unfold Range.Length; ring
    linarith
  unfold Range.ModularAdjustment
  rw [hfl]
  push_cast
  ring

/-- Shifting the constant coefficient shifts every evaluation by the same
amount. -/
theorem evaluate_shift_c0 (c : CubicCurve) (a x : ℚ) :
    CubicCurve.Evaluate { c with c0 := c.c0 + a } x = c.Evaluate x + a := by
  unfold CubicCurve.Evaluate
  dsimp only
  ring

/-- Extensionality for the column store. -/
theorem evalState_ext {a b : EvalState} (h1 : a.sources = b.sources)
    (h2 : a.y_ranges = b.y_ranges) (h3 : a.cubic_xs = b.cubic_xs)
    (h4 : a.cubic_x_ends = b.cubic_x_ends) (h5 : a.cubics = b.cubics)
    (h6 : a.ys = b.ys) : a = b := by
  cases a; cases b; simp_all

/-- Overwriting a position with the value already there changes nothing. -/
theorem set_getD_self {α : Type} (l : List α) (i : ℕ) (d : α)
    (h : i < l.length) : l.set i (l.getD i d) = l := by
  apply List.ext_getElem?
  intro j
  by_cases hj : i = j
  · subst hj
    rw [List.getElem?_set_self h, List.getD_eq_getElem?_getD,
      List.getElem?_eq_getElem h]
    rfl
  · rw [List.getElem?_set_ne hj]

/-- Closed form of EvaluateIndex on a modular slot. -/
theorem EvaluateIndex_eq_modular (st : EvalState) (i : ℕ)
    (hmod : (st.y_ranges.getD i yRangeDefault).modular_arithmetic = true) :
    EvaluateIndex st i =
      { st with
        cubics := st.cubics.set i
          { st.cubics.getD i cubicZero with
            c0 := (st.cubics.getD i cubicZero).c0 +
              (st.y_ranges.getD i yRangeDefault).valid_y.ModularAdjustment
                ((st.cubics.getD i cubicZero).Evaluate (st.cubic_xs.getD i 0)) },
        ys := st.ys.set i
          ((st.cubics.getD i cubicZero).Evaluate (st.cubic_xs.getD i 0) +
            (st.y_ranges.getD i yRangeDefault).valid_y.ModularAdjustment
              ((st.cubics.getD i cubicZero).Evaluate (st.cubic_xs.getD i 0))) } := by
  unfold EvaluateIndex
  rw [if_pos hmod]

/-- C3: for a modular slot, EvaluateIndex stores raw + ModularAdjustment(raw)
as the output, adds the same adjustment to the cubic's constant coefficient,
the stored output lies in the valid interval, and evaluating the index again
reproduces the same state (the second adjustment is zero). -/
theorem evaluateIndex_modular_spec (st : EvalState) (i : ℕ)
    (hwf : WellFormed st) (hi : i < NumIndices st)
    (hmod : (st.y_ranges.getD i yRangeDefault).modular_arithmetic = true)
    (hlen : 0 < (st.y_ranges.getD i yRangeDefault).valid_y.Length) :
    (EvaluateIndex st i).ys.getD i 0 =
      (st.cubics.getD i cubicZero).Evaluate (st.cubic_xs.getD i 0) +
        (st.y_ranges.getD i yRangeDefault).valid_y.ModularAdjustment
          ((st.cubics.getD i cubicZero).Evaluate (st.cubic_xs.getD i 0)) ∧
    ((EvaluateIndex st i).cubics.getD i cubicZero).c0 =
      (st.cubics.getD i cubicZero).c0 +
        (st.y_ranges.getD i yRangeDefault).valid_y.ModularAdjustment
          ((st.cubics.getD i cubicZero).Evaluate (st.cubic_xs.getD i 0)) ∧
    (st.y_ranges.getD i yRangeDefault).valid_y.Contains
      ((EvaluateIndex st i).ys.getD i 0) ∧
    EvaluateIndex (EvaluateIndex st i) i = EvaluateIndex st i := by
  obtain ⟨hyr, hxs, hxe, hcb, hys⟩ := hwf
  have hiy : i < st.ys.length := by rw [hys]; exact hi
  have hic : i < st.cubics.length := by rw [hcb]; exact hi
  have heval := EvaluateIndex_eq_modular st i hmod
  have hbounds := modularAdjustment_lands
    (st.y_ranges.getD i yRangeDefault).valid_y
    ((st.cubics.getD i cubicZero).Evaluate (st.cubic_xs.getD i 0)) hlen
  have hysval : (EvaluateIndex st i).ys.getD i 0 =
      (st.cubics.getD i cubicZero).Evaluate (st.cubic_xs.getD i 0) +
        (st.y_ranges.getD i yRangeDefault).valid_y.ModularAdjustment
          ((st.cubics.getD i cubicZero).Evaluate (st.cubic_xs.getD i 0)) := by
    rw [heval]
    exact getD_set_self _ _ _ _ hiy
  have hcbval : (EvaluateIndex st i).cubics.getD i cubicZero =
      { st.cubics.getD i cubicZero with
        c0 := (st.cubics.getD i cubicZero).c0 +
          (st.y_ranges.getD i yRangeDefault).valid_y.ModularAdjustment
            ((st.cubics.getD i cubicZero).Evaluate (st.cubic_xs.getD i 0)) } := by
    rw [heval]
    exact getD_set_self _ _ _ _ hic
  refine ⟨hysval, by rw [hcbval], ?_, ?_⟩
  · rw [hysval]
    exact ⟨hbounds.1, hbounds.2.le⟩
  · have hyr2 : (EvaluateIndex st i).y_ranges = st.y_ranges := by rw [heval]
    have hxs2 : (EvaluateIndex st i).cubic_xs = st.cubic_xs := by rw [heval]
    have hmod2 : ((EvaluateIndex st i).y_ranges.getD i
        yRangeDefault).modular_arithmetic = true := by
      rw [hyr2]; exact hmod
    have hraw2 : ((EvaluateIndex st i).cubics.getD i cubicZero).Evaluate
        ((EvaluateIndex st i).cubic_xs.getD i 0) =
        (st.cubics.getD i cubicZero).Evaluate (st.cubic_xs.getD i 0) +
          (st.y_ranges.getD i yRangeDefault).valid_y.ModularAdjustment
            ((st.cubics.getD i cubicZero).Evaluate (st.cubic_xs.getD i 0)) := by
      rw [hcbval, hxs2, evaluate_shift_c0]
    have hadj2 : ((EvaluateIndex st i).y_ranges.getD i
        yRangeDefault).valid_y.ModularAdjustment
        (((EvaluateIndex st i).cubics.getD i cubicZero).Evaluate
          ((EvaluateIndex st i).cubic_xs.getD i 0)) = 0 := by
      rw [hyr2, hraw2]
      exact modularAdjustment_eq_zero _ _ hlen hbounds.1 hbounds.2
    have hlc : i < (EvaluateIndex st i).cubics.length := by
      rw [heval]
      simpa using hic
    have hly : i < (EvaluateIndex st i).ys.length := by
      rw [heval]
      simpa using hiy
    rw [EvaluateIndex_eq_modular (EvaluateIndex st i) i hmod2]
    refine evalState_ext rfl rfl rfl rfl ?_ ?_
    · show ((EvaluateIndex st i).cubics.set i _) = (EvaluateIndex st i).cubics
      rw [hadj2, add_zero]
      exact set_getD_self _ _ _ hlc
    · show ((EvaluateIndex st i).ys.set i _) = (EvaluateIndex st i).ys
      rw [hadj2, add_zero]
      have hv : ((EvaluateIndex st i).cubics.getD i cubicZero).Evaluate
          ((EvaluateIndex st i).cubic_xs.getD i 0) =
          (EvaluateIndex st i).ys.getD i 0 := hraw2.trans hysval.symm
      rw [hv]
      exact set_getD_self _ _ _ hly

/-- A one-slot modular store whose cubic evaluates to 370 on an interval of
length 360: the spec's own worked example. -/
def stateModular : EvalState :=
  ⟨[sourceDefault], [⟨⟨0, 360⟩, true⟩], [0], [0], [⟨370, 0, 0, 0⟩], [0]⟩

/-- C3 witness: on the concrete modular store, the raw value 370 is stored as
10, the constant coefficient moves by the same -360, the result is in range,
and re-evaluation is stable. -/
theorem evaluateIndex_modular_spec_witness :
    WellFormed stateModular ∧ 0 < NumIndices stateModular ∧
    (stateModular.y_ranges.getD 0 yRangeDefault).modular_arithmetic = true ∧
    0 < (stateModular.y_ranges.getD 0 yRangeDefault).valid_y.Length ∧
    ((EvaluateIndex stateModular 0).ys.getD 0 0 =
      (stateModular.cubics.getD 0 cubicZero).Evaluate (stateModular.cubic_xs.getD 0 0) +
        (stateModular.y_ranges.getD 0 yRangeDefault).valid_y.ModularAdjustment
          ((stateModular.cubics.getD 0 cubicZero).Evaluate (stateModular.cubic_xs.getD 0 0)) ∧
    ((EvaluateIndex stateModular 0).cubics.getD 0 cubicZero).c0 =
      (stateModular.cubics.getD 0 cubicZero).c0 +
        (stateModular.y_ranges.getD 0 yRangeDefault).valid_y.ModularAdjustment
          ((stateModular.cubics.getD 0 cubicZero).Evaluate (stateModular.cubic_xs.getD 0 0)) ∧
    (stateModular.y_ranges.getD 0 yRangeDefault).valid_y.Contains
      ((EvaluateIndex stateModular 0).ys.getD 0 0) ∧
    EvaluateIndex (EvaluateIndex stateModular 0) 0 = EvaluateIndex stateModular 0) :=
  ⟨by decide, by decide, by decide, by norm_num [stateModular, Range.Length, yRangeDefault],
   evaluateIndex_modular_spec stateModular 0 (by decide) (by decide) (by decide)
     (by norm_num [stateModular, Range.Length, yRangeDefault])⟩

/-- Closed form of EvaluateIndex on a non-modular slot. -/
theorem EvaluateIndex_eq_clamp (st : EvalState) (i : ℕ)
    (hmod : (st.y_ranges.getD i yRangeDefault).modular_arithmetic = false) :
    EvaluateIndex st i =
      { st with ys := st.ys.set i
                  ((st.y_ranges.getD i yRangeDefault).valid_y.Clamp
                    ((st.cubics.getD i cubicZero).Evaluate
                      (st.cubic_xs.getD i 0))) } := by
  unfold EvaluateIndex
  rw [if_neg (by rw [hmod]; exact Bool.false_ne_true)]

/-- EvaluateIndex never touches the sources, y_ranges, cursor or segment
length columns. -/
theorem EvaluateIndex_cols (st : EvalState) (i : ℕ) :
    (EvaluateIndex st i).sources = st.sources ∧
    (EvaluateIndex st i).y_ranges = st.y_ranges ∧
    (EvaluateIndex st i).cubic_xs = st.cubic_xs ∧
    (EvaluateIndex st i).cubic_x_ends = st.cubic_x_ends := by
  by_cases hm : (st.y_ranges.getD i yRangeDefault).modular_arithmetic = true
  · rw [EvaluateIndex_eq_modular st i hm]
    exact ⟨rfl, rfl, rfl, rfl⟩
  · rw [EvaluateIndex_eq_clamp st i (by simpa using hm)]
    exact ⟨rfl, rfl, rfl, rfl⟩

/-- EvaluateIndex leaves the cubic of a non-modular slot alone, whichever
index it evaluates. -/
theorem EvaluateIndex_cubics_getD (st : EvalState) (a idx : ℕ)
    (hm : (st.y_ranges.getD idx yRangeDefault).modular_arithmetic = false) :
    (EvaluateIndex st a).cubics.getD idx cubicZero =
      st.cubics.getD idx cubicZero := by
  by_cases ha : a = idx
  · subst ha
    rw [EvaluateIndex_eq_clamp st a hm]
  · by_cases hmod : (st.y_ranges.getD a yRangeDefault).modular_arithmetic = true
    · rw [EvaluateIndex_eq_modular st a hmod]
      exact getD_set_ne _ _ _ ha
    · rw [EvaluateIndex_eq_clamp st a (by simpa using hmod)]

/-- Folding EvaluateIndex over any index list preserves the four columns it
never writes. -/
theorem foldl_evaluateIndex_cols (L : List ℕ) (st : EvalState) :
    (L.foldl EvaluateIndex st).sources = st.sources ∧
    (L.foldl EvaluateIndex st).y_ranges = st.y_ranges ∧
    (L.foldl EvaluateIndex st).cubic_xs = st.cubic_xs ∧
    (L.foldl EvaluateIndex st).cubic_x_ends = st.cubic_x_ends := by
  induction L generalizing st with
  | nil => exact ⟨rfl, rfl, rfl, rfl⟩
  | cons a L ih =>
      have h := ih (EvaluateIndex st a)
      have h0 := EvaluateIndex_cols st a
      simp only [List.foldl_cons]
      exact ⟨h.1.trans h0.1, h.2.1.trans h0.2.1, h.2.2.1.trans h0.2.2.1,
        h.2.2.2.trans h0.2.2.2⟩

/-- EvaluateIndex changes at most the constant coefficient of any slot's
cubic: the degree 1, 2 and 3 coefficients survive every evaluation, modular
or not. -/
theorem EvaluateIndex_cubics_tail (st : EvalState) (a idx : ℕ) :
    ((EvaluateIndex st a).cubics.getD idx cubicZero).c1 =
      (st.cubics.getD idx cubicZero).c1 ∧
    ((EvaluateIndex st a).cubics.getD idx cubicZero).c2 =
      (st.cubics.getD idx cubicZero).c2 ∧
    ((EvaluateIndex st a).cubics.getD idx cubicZero).c3 =
      (st.cubics.getD idx cubicZero).c3 := by
  by_cases hm : (st.y_ranges.getD a yRangeDefault).modular_arithmetic = true
  · rw [EvaluateIndex_eq_modular st a hm]
    by_cases ha : a = idx
    · subst ha
      rcases lt_or_le a st.cubics.length with hlt | hge
      · rw [getD_set_self _ _ _ _ hlt]
        exact ⟨rfl, rfl, rfl⟩
      · rw [List.set_eq_of_length_le hge]
        exact ⟨rfl, rfl, rfl⟩
    · rw [getD_set_ne _ _ _ ha]
      exact ⟨rfl, rfl, rfl⟩
  · rw [EvaluateIndex_eq_clamp st a (by simpa using hm)]
    exact ⟨rfl, rfl, rfl⟩

/-- Folding EvaluateIndex over any index list changes at most the constant
coefficients of the cubics. -/
theorem foldl_evaluateIndex_cubics_tail (L : List ℕ) (st : EvalState)
    (idx : ℕ) :
    ((L.foldl EvaluateIndex st).cubics.getD idx cubicZero).c1 =
      (st.cubics.getD idx cubicZero).c1 ∧
    ((L.foldl EvaluateIndex st).cubics.getD idx cubicZero).c2 =
      (st.cubics.getD idx cubicZero).c2 ∧
    ((L.foldl EvaluateIndex st).cubics.getD idx cubicZero).c3 =
      (st.cubics.getD idx cubicZero).c3 := by
  induction L generalizing st with
  | nil => exact ⟨rfl, rfl, rfl⟩
  | cons a L ih =>
      simp only [List.foldl_cons]
      have h1 := EvaluateIndex_cubics_tail st a idx
      have h2 := ih (EvaluateIndex st a)
      exact ⟨h2.1.trans h1.1, h2.2.1.trans h1.2.1, h2.2.2.trans h1.2.2⟩

/-- Folding EvaluateIndex preserves the cubic of a non-modular slot. -/
theorem foldl_evaluateIndex_cubics_nonmod (L : List ℕ) (st : EvalState)
    (idx : ℕ)
    (hm : (st.y_ranges.getD idx yRangeDefault).modular_arithmetic = false) :
    (L.foldl EvaluateIndex st).cubics.getD idx cubicZero =
      st.cubics.getD idx cubicZero := by
  induction L generalizing st with
  | nil => rfl
  | cons a L ih =>
      simp only [List.foldl_cons]
      have hyr := (EvaluateIndex_cols st a).2.1
      have := ih (EvaluateIndex st a) (by rw [hyr]; exact hm)
      rw [this, EvaluateIndex_cubics_getD st a idx hm]

/-- InitCubic on a slot with no spline is the identity. -/
theorem InitCubic_inert (st : EvalState) (j : ℕ) (x : ℚ)
    (h : (st.sources.getD j sourceDefault).spline = none) :
    InitCubic st j x = st := by
  unfold InitCubic
  rw [h]

/-- Closed form of InitCubic on a slot that has a spline: resolve the segment
by one forward search, wrapping around once when allowed, then load it. -/
theorem InitCubic_eq_some (st : EvalState) (j : ℕ) (x : ℚ)
    (sp : CompactSpline)
    (h : (st.sources.getD j sourceDefault).spline = some sp) :
    InitCubic st j x =
      (if (st.sources.getD j sourceDefault).rep = true ∧
          IndexForX sp x
            (searchStart sp (st.sources.getD j sourceDefault).x_index) =
            SplineIdx.afterSpline then
        loadSegment st j (st.sources.getD j sourceDefault) sp (x - LengthX sp)
          (IndexForX sp (x - LengthX sp) 0)
      else
        loadSegment st j (st.sources.getD j sourceDefault) sp x
          (IndexForX sp x
            (searchStart sp (st.sources.getD j sourceDefault).x_index))) := by
  unfold InitCubic
  rw [h]

/-- Resolving the segment already loaded leaves the state untouched. -/
theorem loadSegment_same (st : EvalState) (j : ℕ) (s : Source)
    (sp : CompactSpline) (nx : ℚ) (xi : SplineIdx) (h : s.x_index = xi) :
    loadSegment st j s sp nx xi = st := by
  unfold loadSegment
  rw [if_pos h]

/-- Closed form of loading a genuinely new segment. -/
theorem loadSegment_new (st : EvalState) (j : ℕ) (s : Source)
    (sp : CompactSpline) (nx : ℚ) (xi : SplineIdx) (h : ¬s.x_index = xi) :
    loadSegment st j s sp nx xi =
      { st with
        sources := st.sources.set j { s with x_index := xi },
        cubic_xs := st.cubic_xs.set j (nx - (RangeX sp xi).start),
        cubic_x_ends := st.cubic_x_ends.set j (RangeX sp xi).Length,
        cubics := st.cubics.set j
          (if (st.y_ranges.getD j yRangeDefault).modular_arithmetic then
            { CreateCubicInit sp xi with
              c0 := (st.y_ranges.getD j yRangeDefault).valid_y.NormalizeWildValue
                      (CreateCubicInit sp xi).c0 }
          else CreateCubicInit sp xi) } := by
  unfold loadSegment
  rw [if_neg h]

/-- A segment load never touches the ys and y_ranges columns. -/
theorem loadSegment_ys_cols (st : EvalState) (j : ℕ) (s : Source)
    (sp : CompactSpline) (nx : ℚ) (xi : SplineIdx) :
    (loadSegment st j s sp nx xi).ys = st.ys ∧
    (loadSegment st j s sp nx xi).y_ranges = st.y_ranges := by
  by_cases h : s.x_index = xi
  · rw [loadSegment_same st j s sp nx xi h]
    exact ⟨rfl, rfl⟩
  · rw [loadSegment_new st j s sp nx xi h]
    exact ⟨rfl, rfl⟩

/-- A segment load of one slot does not change any other slot's columns. -/
theorem loadSegment_getD_ne (st : EvalState) (j : ℕ) (s : Source)
    (sp : CompactSpline) (nx : ℚ) (xi : SplineIdx) (idx : ℕ)
    (hne : j ≠ idx) :
    (loadSegment st j s sp nx xi).sources.getD idx sourceDefault =
      st.sources.getD idx sourceDefault ∧
    (loadSegment st j s sp nx xi).cubic_xs.getD idx 0 =
      st.cubic_xs.getD idx 0 ∧
    (loadSegment st j s sp nx xi).cubic_x_ends.getD idx 0 =
      st.cubic_x_ends.getD idx 0 ∧
    (loadSegment st j s sp nx xi).cubics.getD idx cubicZero =
      st.cubics.getD idx cubicZero := by
  by_cases h : s.x_index = xi
  · rw [loadSegment_same st j s sp nx xi h]
    exact ⟨rfl, rfl, rfl, rfl⟩
  · rw [loadSegment_new st j s sp nx xi h]
    exact ⟨getD_set_ne _ _ _ hne, getD_set_ne _ _ _ hne,
      getD_set_ne _ _ _ hne, getD_set_ne _ _ _ hne⟩

/-- InitCubic never touches the ys and y_ranges columns. -/
theorem InitCubic_ys_cols (st : EvalState) (j : ℕ) (x : ℚ) :
    (InitCubic st j x).ys = st.ys ∧
    (InitCubic st j x).y_ranges = st.y_ranges := by
  cases h : (st.sources.getD j sourceDefault).spline with
  | none => rw [InitCubic_inert st j x h]; exact ⟨rfl, rfl⟩
  | some sp =>
      rw [InitCubic_eq_some st j x sp h]
      split
      · exact loadSegment_ys_cols _ _ _ _ _ _
      · exact loadSegment_ys_cols _ _ _ _ _ _

/-- InitCubic of one index does not change any other slot's columns. -/
theorem InitCubic_getD_ne (st : EvalState) (j : ℕ) (x : ℚ) (idx : ℕ)
    (hne : j ≠ idx) :
    (InitCubic st j x).sources.getD idx sourceDefault =
      st.sources.getD idx sourceDefault ∧
    (InitCubic st j x).cubic_xs.getD idx 0 = st.cubic_xs.getD idx 0 ∧
    (InitCubic st j x).cubic_x_ends.getD idx 0 = st.cubic_x_ends.getD idx 0 ∧
    (InitCubic st j x).cubics.getD idx cubicZero =
      st.cubics.getD idx cubicZero := by
  cases h : (st.sources.getD j sourceDefault).spline with
  | none => rw [InitCubic_inert st j x h]; exact ⟨rfl, rfl, rfl, rfl⟩
  | some sp =>
      rw [InitCubic_eq_some st j x sp h]
      split
      · exact loadSegment_getD_ne _ _ _ _ _ _ _ hne
      · exact loadSegment_getD_ne _ _ _ _ _ _ _ hne

/-- The re-initialization fold of AdvanceFrame leaves every column of an
inert slot untouched (and the ys and y_ranges columns entirely). -/
theorem foldl_initCubic_inert (L : List ℕ) (st : EvalState) (idx : ℕ)
    (h : (st.sources.getD idx sourceDefault).spline = none) :
    (L.foldl (fun s i => InitCubic s i (X s i)) st).sources.getD idx
        sourceDefault = st.sources.getD idx sourceDefault ∧
    (L.foldl (fun s i => InitCubic s i (X s i)) st).cubic_xs.getD idx 0 =
      st.cubic_xs.getD idx 0 ∧
    (L.foldl (fun s i => InitCubic s i (X s i)) st).cubic_x_ends.getD idx 0 =
      st.cubic_x_ends.getD idx 0 ∧
    (L.foldl (fun s i => InitCubic s i (X s i)) st).cubics.getD idx cubicZero =
      st.cubics.getD idx cubicZero ∧
    (L.foldl (fun s i => InitCubic s i (X s i)) st).ys = st.ys ∧
    (L.foldl (fun s i => InitCubic s i (X s i)) st).y_ranges = st.y_ranges := by
  induction L generalizing st with
  | nil => exact ⟨rfl, rfl, rfl, rfl, rfl, rfl⟩
  | cons a L ih =>
      simp only [List.foldl_cons]
      by_cases ha : a = idx
      · subst ha
        rw [InitCubic_inert st a (X st a) h]
        exact ih st h
      · have hne := InitCubic_getD_ne st a (X st a) idx (fun hx => ha hx)
        have hyc := InitCubic_ys_cols st a (X st a)
        have hnull2 : ((InitCubic st a (X st a)).sources.getD idx
            sourceDefault).spline = none := by rw [hne.1]; exact h
        have hrec := ih (InitCubic st a (X st a)) hnull2
        exact ⟨hrec.1.trans hne.1, hrec.2.1.trans hne.2.1,
          hrec.2.2.1.trans hne.2.2.1, hrec.2.2.2.1.trans hne.2.2.2,
          hrec.2.2.2.2.1.trans hyc.1, hrec.2.2.2.2.2.trans hyc.2⟩

/-- A one-slot inert store with a stale non-zero cubic and a non-modular
range: bulk evaluation does not skip it. -/
def stateInertEval : EvalState :=
  ⟨[sourceDefault], [⟨⟨0, 10⟩, false⟩], [0], [0], [⟨5, 0, 0, 0⟩], [0]⟩

/-- C6 counterexample: on an inert slot (null curve reference) the bulk
evaluation pass does not skip the slot: it overwrites last_value with the
evaluation of the slot's stale cubic (here 5 replaces the stored 0), so
last_value does not remain whatever was last written. -/
theorem evaluateCubics_overwrites_inert :
    (stateInertEval.sources.getD 0 sourceDefault).spline = none ∧
    (EvaluateCubics_C stateInertEval).ys.getD 0 0 ≠
      stateInertEval.ys.getD 0 0 := by
  refine ⟨by decide, ?_⟩
  norm_num [EvaluateCubics_C, NumIndices, stateInertEval, List.range_succ,
    EvaluateIndex, Range.Clamp, yRangeDefault, sourceDefault, cubicZero,
    CubicCurve.Evaluate]

/-- C6 amended: segment re-initialization silently skips an inert slot (the
state is unchanged), but bulk evaluation does not skip it: it overwrites the
slot's last_value with the range-adjusted evaluation of the slot's current
cubic at its cursor. -/
theorem inert_slot_spec (st : EvalState) (idx : ℕ) (x : ℚ)
    (hnull : (st.sources.getD idx sourceDefault).spline = none)
    (hidx : idx < st.ys.length) :
    InitCubic st idx x = st ∧
    (EvaluateIndex st idx).ys.getD idx 0 =
      (if (st.y_ranges.getD idx yRangeDefault).modular_arithmetic then
        (st.cubics.getD idx cubicZero).Evaluate (st.cubic_xs.getD idx 0) +
          (st.y_ranges.getD idx yRangeDefault).valid_y.ModularAdjustment
            ((st.cubics.getD idx cubicZero).Evaluate (st.cubic_xs.getD idx 0))
      else (st.y_ranges.getD idx yRangeDefault).valid_y.Clamp
        ((st.cubics.getD idx cubicZero).Evaluate (st.cubic_xs.getD idx 0))) := by
  refine ⟨InitCubic_inert st idx x hnull, ?_⟩
  by_cases hm : (st.y_ranges.getD idx yRangeDefault).modular_arithmetic = true
  · rw [EvaluateIndex_eq_modular st idx hm, if_pos hm]
    exact getD_set_self _ _ _ _ hidx
  · have hm' : (st.y_ranges.getD idx yRangeDefault).modular_arithmetic = false := by
      simpa using hm
    rw [EvaluateIndex_eq_clamp st idx hm', hm']
    simp only [Bool.false_eq_true, if_false]
    exact getD_set_self _ _ _ _ hidx

/-- C6 amended witness: the inert one-slot store evaluated concretely. -/
theorem inert_slot_spec_witness :
    (stateInertEval.sources.getD 0 sourceDefault).spline = none ∧
    0 < stateInertEval.ys.length ∧
    (InitCubic stateInertEval 0 7 = stateInertEval ∧
     (EvaluateIndex stateInertEval 0).ys.getD 0 0 =
       (if (stateInertEval.y_ranges.getD 0 yRangeDefault).modular_arithmetic then
         (stateInertEval.cubics.getD 0 cubicZero).Evaluate
             (stateInertEval.cubic_xs.getD 0 0) +
           (stateInertEval.y_ranges.getD 0 yRangeDefault).valid_y.ModularAdjustment
             ((stateInertEval.cubics.getD 0 cubicZero).Evaluate
               (stateInertEval.cubic_xs.getD 0 0))
       else (stateInertEval.y_ranges.getD 0 yRangeDefault).valid_y.Clamp
         ((stateInertEval.cubics.getD 0 cubicZero).Evaluate
           (stateInertEval.cubic_xs.getD 0 0)))) :=
  ⟨by decide, by decide, inert_slot_spec stateInertEval 0 7 (by decide) (by decide)⟩

/-- A one-slot inert store with a modular range and a stale cubic whose value
lies outside the valid interval. -/
def stateInertModular : EvalState :=
  ⟨[sourceDefault], [⟨⟨0, 1⟩, true⟩], [0], [0], [⟨3 / 2, 0, 0, 0⟩], [0]⟩

/-- C10 counterexample: AdvanceFrame on an inert slot with a modular output
range also mutates the cubic's constant coefficient (the modular adjustment
is folded into it), so the frame changes more than the cursor and the output
value. -/
theorem advanceFrame_mutates_inert_cubic :
    (stateInertModular.sources.getD 0 sourceDefault).spline = none ∧
    (AdvanceFrame 1 stateInertModular).cubics.getD 0 cubicZero ≠
      stateInertModular.cubics.getD 0 cubicZero := by
  refine ⟨by decide, ?_⟩
  have h1 : (AdvanceFrame 1 stateInertModular).cubics.getD 0 cubicZero =
      ⟨1 / 2, 0, 0, 0⟩ := by
    norm_num [AdvanceFrame, UpdateCubicXs_OneStep, advanceXs, NumIndices,
      stateInertModular, List.range_succ, InitCubic, X, EvaluateCubics_C,
      EvaluateIndex, CubicCurve.Evaluate, Range.ModularAdjustment, Range.Length,
      yRangeDefault, sourceDefault, cubicZero, searchStart]
  rw [h1]
  intro hcontra
  have := congrArg CubicCurve.c0 hcontra
  norm_num [stateInertModular, cubicZero] at this

/-- C10 amended: for an inert slot, AdvanceFrame keeps the segment length at
zero, adds the delta to the cursor exactly once, includes the slot in the
expired list whenever the new cursor is positive, performs a no-op
re-initialization, and changes nothing in the slot except its cursor, its
output value and - when the slot's range is modular - the cubic's constant
coefficient: source and range are untouched, the cubic's degree 1, 2 and 3
coefficients are untouched in every case, and for a non-modular range the
cubic itself is untouched. -/
theorem advanceFrame_inert_spec (st : EvalState) (idx : ℕ) (delta_x : ℚ)
    (hwf : WellFormed st) (hidx : idx < NumIndices st)
    (hnull : (st.sources.getD idx sourceDefault).spline = none)
    (hend : st.cubic_x_ends.getD idx 0 = 0) :
    (AdvanceFrame delta_x st).cubic_x_ends.getD idx 0 = 0 ∧
    (AdvanceFrame delta_x st).cubic_xs.getD idx 0 =
      st.cubic_xs.getD idx 0 + delta_x ∧
    (0 < st.cubic_xs.getD idx 0 + delta_x →
      idx ∈ AdvanceFrameExpired delta_x st) ∧
    InitCubic st idx (X st idx) = st ∧
    (AdvanceFrame delta_x st).sources.getD idx sourceDefault =
      st.sources.getD idx sourceDefault ∧
    (AdvanceFrame delta_x st).y_ranges.getD idx yRangeDefault =
      st.y_ranges.getD idx yRangeDefault ∧
    ((AdvanceFrame delta_x st).cubics.getD idx cubicZero).c1 =
      (st.cubics.getD idx cubicZero).c1 ∧
    ((AdvanceFrame delta_x st).cubics.getD idx cubicZero).c2 =
      (st.cubics.getD idx cubicZero).c2 ∧
    ((AdvanceFrame delta_x st).cubics.getD idx cubicZero).c3 =
      (st.cubics.getD idx cubicZero).c3 ∧
    ((st.y_ranges.getD idx yRangeDefault).modular_arithmetic = false →
      (AdvanceFrame delta_x st).cubics.getD idx cubicZero =
        st.cubics.getD idx cubicZero) := by
  obtain ⟨hyr, hxs, hxe, hcb, hys⟩ := hwf
  have hilt : idx < st.cubic_xs.length := by rw [hxs]; exact hidx
  have hadv :=
    foldl_initCubic_inert (UpdateCubicXs_OneStep delta_x st).2
      (UpdateCubicXs_OneStep delta_x st).1 idx hnull
  have hAF : AdvanceFrame delta_x st =
      EvaluateCubics_C ((UpdateCubicXs_OneStep delta_x st).2.foldl
        (fun s i => InitCubic s i (X s i))
        (UpdateCubicXs_OneStep delta_x st).1) := rfl
  have hev := foldl_evaluateIndex_cols
    (List.range (NumIndices ((UpdateCubicXs_OneStep delta_x st).2.foldl
      (fun s i => InitCubic s i (X s i)) (UpdateCubicXs_OneStep delta_x st).1)))
    ((UpdateCubicXs_OneStep delta_x st).2.foldl
      (fun s i => InitCubic s i (X s i)) (UpdateCubicXs_OneStep delta_x st).1)
  refine ⟨?_, ?_, ?_, InitCubic_inert st idx (X st idx) hnull,
    ?_, ?_, ?_, ?_, ?_, ?_⟩
  · rw [hAF]
    show (EvaluateCubics_C _).cubic_x_ends.getD idx 0 = 0
    rw [show EvaluateCubics_C ((UpdateCubicXs_OneStep delta_x st).2.foldl
      (fun s i => InitCubic s i (X s i)) (UpdateCubicXs_OneStep delta_x st).1) =
      (List.range (NumIndices _)).foldl EvaluateIndex _ from rfl]
    rw [hev.2.2.2, hadv.2.2.1]
    exact hend
  · rw [hAF]
    rw [show EvaluateCubics_C ((UpdateCubicXs_OneStep delta_x st).2.foldl
      (fun s i => InitCubic s i (X s i)) (UpdateCubicXs_OneStep delta_x st).1) =
      (List.range (NumIndices _)).foldl EvaluateIndex _ from rfl]
    rw [hev.2.2.1, hadv.2.1]
    exact oneStep_xs_getD st delta_x idx 0 hilt
  · intro hpos
    rw [AdvanceFrameExpired, oneStep_mem_iff st delta_x idx hxs hidx, hend]
    exact hpos
  · rw [hAF]
    rw [show EvaluateCubics_C ((UpdateCubicXs_OneStep delta_x st).2.foldl
      (fun s i => InitCubic s i (X s i)) (UpdateCubicXs_OneStep delta_x st).1) =
      (List.range (NumIndices _)).foldl EvaluateIndex _ from rfl]
    rw [hev.1, hadv.1]
    rfl
  · rw [hAF]
    rw [show EvaluateCubics_C ((UpdateCubicXs_OneStep delta_x st).2.foldl
      (fun s i => InitCubic s i (X s i)) (UpdateCubicXs_OneStep delta_x st).1) =
      (List.range (NumIndices _)).foldl EvaluateIndex _ from rfl]
    rw [hev.2.1, hadv.2.2.2.2.2]
    rfl
  · rw [hAF]
    rw [show EvaluateCubics_C ((UpdateCubicXs_OneStep delta_x st).2.foldl
      (fun s i => InitCubic s i (X s i)) (UpdateCubicXs_OneStep delta_x st).1) =
      (List.range (NumIndices _)).foldl EvaluateIndex _ from rfl]
    exact (foldl_evaluateIndex_cubics_tail _ _ idx).1.trans
      (congrArg CubicCurve.c1 hadv.2.2.2.1)
  · rw [hAF]
    rw [show EvaluateCubics_C ((UpdateCubicXs_OneStep delta_x st).2.foldl
      (fun s i => InitCubic s i (X s i)) (UpdateCubicXs_OneStep delta_x st).1) =
      (List.range (NumIndices _)).foldl EvaluateIndex _ from rfl]
    exact (foldl_evaluateIndex_cubics_tail _ _ idx).2.1.trans
      (congrArg CubicCurve.c2 hadv.2.2.2.1)
  · rw [hAF]
    rw [show EvaluateCubics_C ((UpdateCubicXs_OneStep delta_x st).2.foldl
      (fun s i => InitCubic s i (X s i)) (UpdateCubicXs_OneStep delta_x st).1) =
      (List.range (NumIndices _)).foldl EvaluateIndex _ from rfl]
    exact (foldl_evaluateIndex_cubics_tail _ _ idx).2.2.trans
      (congrArg CubicCurve.c3 hadv.2.2.2.1)
  · intro hm
    have hyr2 : ((UpdateCubicXs_OneStep delta_x st).2.foldl
        (fun s i => InitCubic s i (X s i))
        (UpdateCubicXs_OneStep delta_x st).1).y_ranges = st.y_ranges :=
      hadv.2.2.2.2.2
    rw [hAF]
    rw [show EvaluateCubics_C ((UpdateCubicXs_OneStep delta_x st).2.foldl
      (fun s i => InitCubic s i (X s i)) (UpdateCubicXs_OneStep delta_x st).1) =
      (List.range (NumIndices _)).foldl EvaluateIndex _ from rfl]
    rw [foldl_evaluateIndex_cubics_nonmod _ _ idx (by rw [hyr2]; exact hm)]
    exact hadv.2.2.2.1

/-- C10 amended witness: the inert non-modular one-slot store advanced by 1
(the whole-cubic clause fires) and the inert modular one-slot store advanced
by 1 (the degree 1, 2 and 3 coefficient clauses fire while the constant
coefficient really changes). -/
theorem advanceFrame_inert_spec_witness :
    (WellFormed stateInertEval ∧ 0 < NumIndices stateInertEval ∧
     (stateInertEval.sources.getD 0 sourceDefault).spline = none ∧
     stateInertEval.cubic_x_ends.getD 0 0 = 0 ∧
     ((AdvanceFrame 1 stateInertEval).cubic_x_ends.getD 0 0 = 0 ∧
      (AdvanceFrame 1 stateInertEval).cubic_xs.getD 0 0 =
        stateInertEval.cubic_xs.getD 0 0 + 1 ∧
      (0 < stateInertEval.cubic_xs.getD 0 0 + 1 →
        0 ∈ AdvanceFrameExpired 1 stateInertEval) ∧
      InitCubic stateInertEval 0 (X stateInertEval 0) = stateInertEval ∧
      (AdvanceFrame 1 stateInertEval).sources.getD 0 sourceDefault =
        stateInertEval.sources.getD 0 sourceDefault ∧
      (AdvanceFrame 1 stateInertEval).y_ranges.getD 0 yRangeDefault =
        stateInertEval.y_ranges.getD 0 yRangeDefault ∧
      ((AdvanceFrame 1 stateInertEval).cubics.getD 0 cubicZero).c1 =
        (stateInertEval.cubics.getD 0 cubicZero).c1 ∧
      ((AdvanceFrame 1 stateInertEval).cubics.getD 0 cubicZero).c2 =
        (stateInertEval.cubics.getD 0 cubicZero).c2 ∧
      ((AdvanceFrame 1 stateInertEval).cubics.getD 0 cubicZero).c3 =
        (stateInertEval.cubics.getD 0 cubicZero).c3 ∧
      ((stateInertEval.y_ranges.getD 0 yRangeDefault).modular_arithmetic = false →
        (AdvanceFrame 1 stateInertEval).cubics.getD 0 cubicZero =
          stateInertEval.cubics.getD 0 cubicZero))) ∧
    (WellFormed stateInertModular ∧ 0 < NumIndices stateInertModular ∧
     (stateInertModular.sources.getD 0 sourceDefault).spline = none ∧
     stateInertModular.cubic_x_ends.getD 0 0 = 0 ∧
     (stateInertModular.y_ranges.getD 0 yRangeDefault).modular_arithmetic = true ∧
     ((AdvanceFrame 1 stateInertModular).cubic_x_ends.getD 0 0 = 0 ∧
      (AdvanceFrame 1 stateInertModular).cubic_xs.getD 0 0 =
        stateInertModular.cubic_xs.getD 0 0 + 1 ∧
      (0 < stateInertModular.cubic_xs.getD 0 0 + 1 →
        0 ∈ AdvanceFrameExpired 1 stateInertModular) ∧
      InitCubic stateInertModular 0 (X stateInertModular 0) =
        stateInertModular ∧
      (AdvanceFrame 1 stateInertModular).sources.getD 0 sourceDefault =
        stateInertModular.sources.getD 0 sourceDefault ∧
      (AdvanceFrame 1 stateInertModular).y_ranges.getD 0 yRangeDefault =
        stateInertModular.y_ranges.getD 0 yRangeDefault ∧
      ((AdvanceFrame 1 stateInertModular).cubics.getD 0 cubicZero).c1 =
        (stateInertModular.cubics.getD 0 cubicZero).c1 ∧
      ((AdvanceFrame 1 stateInertModular).cubics.getD 0 cubicZero).c2 =
        (stateInertModular.cubics.getD 0 cubicZero).c2 ∧
      ((AdvanceFrame 1 stateInertModular).cubics.getD 0 cubicZero).c3 =
        (stateInertModular.cubics.getD 0 cubicZero).c3 ∧
      ((stateInertModular.y_ranges.getD 0 yRangeDefault).modular_arithmetic = false →
        (AdvanceFrame 1 stateInertModular).cubics.getD 0 cubicZero =
          stateInertModular.cubics.getD 0 cubicZero))) :=
  ⟨⟨by decide, by decide, by decide, by decide,
    advanceFrame_inert_spec stateInertEval 0 1 (by decide) (by decide)
      (by decide) (by decide)⟩,
   ⟨by decide, by decide, by decide, by decide, by decide,
    advanceFrame_inert_spec stateInertModular 0 1 (by decide) (by decide)
      (by decide) (by decide)⟩⟩

/-- A successful forward search returns a segment at or past the start index
that covers the position. -/
theorem IndexForX_seg (sp : CompactSpline) (x : ℚ) (k j : ℕ)
    (h : IndexForX sp x k = SplineIdx.seg j) : k ≤ j ∧ coversX sp j x := by
  unfold IndexForX at h
  cases hf : (List.range' k (sp.segs.length - k)).find?
      (fun i => decide (coversX sp i x)) with
  | none => rw [hf] at h; cases h
  | some i =>
      rw [hf] at h
      cases h
      have hp := List.find?_some hf
      have hm := List.mem_of_find?_eq_some hf
      obtain ⟨t, -, ht⟩ := List.mem_range'.mp hm
      exact ⟨by omega, of_decide_eq_true hp⟩

/-- C5: the InitCubic segment search runs forward from one past the loaded
segment (a found segment index is at or past the search start, and covers the
position); when the forward search runs off the end and repeat is set, the
curve's span is subtracted and the search retried from segment 0; and when
the resolved segment equals the loaded one, the state is returned untouched
(no refit, no cursor reset). -/
theorem initCubic_search_spec (st : EvalState) (idx : ℕ) (x : ℚ)
    (sp : CompactSpline)
    (hsp : (st.sources.getD idx sourceDefault).spline = some sp) :
    (∀ j : ℕ,
      IndexForX sp x
          (searchStart sp (st.sources.getD idx sourceDefault).x_index) =
        SplineIdx.seg j →
      searchStart sp (st.sources.getD idx sourceDefault).x_index ≤ j ∧
        coversX sp j x) ∧
    ((st.sources.getD idx sourceDefault).rep = true →
      IndexForX sp x
          (searchStart sp (st.sources.getD idx sourceDefault).x_index) =
        SplineIdx.afterSpline →
      InitCubic st idx x =
        loadSegment st idx (st.sources.getD idx sourceDefault) sp
          (x - LengthX sp) (IndexForX sp (x - LengthX sp) 0)) ∧
    ((if (st.sources.getD idx sourceDefault).rep = true ∧
         IndexForX sp x
             (searchStart sp (st.sources.getD idx sourceDefault).x_index) =
           SplineIdx.afterSpline
      then IndexForX sp (x - LengthX sp) 0
      else IndexForX sp x
        (searchStart sp (st.sources.getD idx sourceDefault).x_index)) =
        (st.sources.getD idx sourceDefault).x_index →
      InitCubic st idx x = st) := by
  refine ⟨fun j hj => IndexForX_seg sp x _ j hj, ?_, ?_⟩
  · intro hrep hafter
    rw [InitCubic_eq_some st idx x sp hsp, if_pos ⟨hrep, hafter⟩]
  · intro hsame
    by_cases hc : (st.sources.getD idx sourceDefault).rep = true ∧
        IndexForX sp x
            (searchStart sp (st.sources.getD idx sourceDefault).x_index) =
          SplineIdx.afterSpline
    · rw [if_pos hc] at hsame
      rw [InitCubic_eq_some st idx x sp hsp, if_pos hc]
      exact loadSegment_same _ _ _ _ _ _ hsame.symm
    · rw [if_neg hc] at hsame
      rw [InitCubic_eq_some st idx x sp hsp, if_neg hc]
      exact loadSegment_same _ _ _ _ _ _ hsame.symm

/-- A two-segment curve covering positions 0 to 10, constant 1 on the first
segment and constant 2 on the second. -/
def splineW : CompactSpline :=
  ⟨[⟨0, 5, ⟨1, 0, 0, 0⟩⟩, ⟨5, 5, ⟨2, 0, 0, 0⟩⟩]⟩

/-- A one-slot store playing splineW: segment 0 loaded, cursor 3 of 5. -/
def stateSpline : EvalState :=
  ⟨[⟨some splineW, SplineIdx.seg 0, true⟩], [⟨⟨0, 10⟩, false⟩],
   [3], [5], [⟨1, 0, 0, 0⟩], [1]⟩

/-- C5 witness: the search properties evaluated on the concrete playing
store. -/
theorem initCubic_search_spec_witness :
    (stateSpline.sources.getD 0 sourceDefault).spline = some splineW ∧
    ((∀ j : ℕ,
      IndexForX splineW 7
          (searchStart splineW (stateSpline.sources.getD 0 sourceDefault).x_index) =
        SplineIdx.seg j →
      searchStart splineW (stateSpline.sources.getD 0 sourceDefault).x_index ≤ j ∧
        coversX splineW j 7) ∧
    ((stateSpline.sources.getD 0 sourceDefault).rep = true →
      IndexForX splineW 7
          (searchStart splineW (stateSpline.sources.getD 0 sourceDefault).x_index) =
        SplineIdx.afterSpline →
      InitCubic stateSpline 0 7 =
        loadSegment stateSpline 0 (stateSpline.sources.getD 0 sourceDefault)
          splineW (7 - LengthX splineW) (IndexForX splineW (7 - LengthX splineW) 0)) ∧
    ((if (stateSpline.sources.getD 0 sourceDefault).rep = true ∧
         IndexForX splineW 7
             (searchStart splineW (stateSpline.sources.getD 0 sourceDefault).x_index) =
           SplineIdx.afterSpline
      then IndexForX splineW (7 - LengthX splineW) 0
      else IndexForX splineW 7
        (searchStart splineW (stateSpline.sources.getD 0 sourceDefault).x_index)) =
        (stateSpline.sources.getD 0 sourceDefault).x_index →
      InitCubic stateSpline 0 7 = stateSpline)) :=
  ⟨by decide, initCubic_search_spec stateSpline 0 7 splineW (by decide)⟩

/-- Clamping lands in the closed interval whenever it is non-degenerate. -/
theorem clamp_contains (r : Range) (v : ℚ) (h : r.start ≤ r.end_) :
    r.Contains (r.Clamp v) := by
  unfold Range.Contains Range.Clamp
  exact ⟨le_max_left _ _, max_le h (min_le_left _ _)⟩

/-- After loading a new segment j at position nx and evaluating the slot, the
segment is recorded, the current position is nx, and the output is inside the
valid interval. -/
theorem evaluate_after_load (st1 : EvalState) (idx : ℕ) (s1 : Source)
    (sp : CompactSpline) (nx : ℚ) (j : ℕ)
    (hwf1 : WellFormed st1) (hidx : idx < NumIndices st1)
    (hspl : s1.spline = some sp)
    (hne : ¬s1.x_index = SplineIdx.seg j)
    (hr : (st1.y_ranges.getD idx yRangeDefault).valid_y.start <
          (st1.y_ranges.getD idx yRangeDefault).valid_y.end_) :
    ((EvaluateIndex (loadSegment st1 idx s1 sp nx (SplineIdx.seg j))
        idx).sources.getD idx sourceDefault).x_index = SplineIdx.seg j ∧
    ((EvaluateIndex (loadSegment st1 idx s1 sp nx (SplineIdx.seg j))
        idx).sources.getD idx sourceDefault).spline = some sp ∧
    X (EvaluateIndex (loadSegment st1 idx s1 sp nx (SplineIdx.seg j)) idx)
        idx = nx ∧
    (st1.y_ranges.getD idx yRangeDefault).valid_y.Contains
      ((EvaluateIndex (loadSegment st1 idx s1 sp nx (SplineIdx.seg j))
        idx).ys.getD idx 0) := by
  obtain ⟨hyr, hxs, hxe, hcb, hys⟩ := hwf1
  have hload := loadSegment_new st1 idx s1 sp nx (SplineIdx.seg j) hne
  have hsrc2 : (loadSegment st1 idx s1 sp nx (SplineIdx.seg j)).sources.getD
      idx sourceDefault = { s1 with x_index := SplineIdx.seg j } := by
    rw [hload]
    exact getD_set_self _ _ _ _ hidx
  have hxs2 : (loadSegment st1 idx s1 sp nx (SplineIdx.seg j)).cubic_xs.getD
      idx 0 = nx - (RangeX sp (SplineIdx.seg j)).start := by
    rw [hload]
    exact getD_set_self _ _ _ _ (by rw [hxs]; exact hidx)
  have hyr2 : (loadSegment st1 idx s1 sp nx (SplineIdx.seg j)).y_ranges =
      st1.y_ranges := by rw [hload]
  have hys2 : (loadSegment st1 idx s1 sp nx (SplineIdx.seg j)).ys = st1.ys := by
    rw [hload]
  have hcols := EvaluateIndex_cols (loadSegment st1 idx s1 sp nx
    (SplineIdx.seg j)) idx
  have hsrc3 : (EvaluateIndex (loadSegment st1 idx s1 sp nx (SplineIdx.seg j))
      idx).sources.getD idx sourceDefault =
      { s1 with x_index := SplineIdx.seg j } := by rw [hcols.1, hsrc2]
  have hxs3 : (EvaluateIndex (loadSegment st1 idx s1 sp nx (SplineIdx.seg j))
      idx).cubic_xs.getD idx 0 = nx - (RangeX sp (SplineIdx.seg j)).start := by
    rw [hcols.2.2.1, hxs2]
  refine ⟨by rw [hsrc3], by rw [hsrc3]; exact hspl, ?_, ?_⟩
  · unfold X
    rw [hsrc3]
    dsimp only
    rw [hspl, hxs3]
    ring
  · have hyr1 : (loadSegment st1 idx s1 sp nx (SplineIdx.seg j)).y_ranges.getD
        idx yRangeDefault = st1.y_ranges.getD idx yRangeDefault := by rw [hyr2]
    have hly : idx < (loadSegment st1 idx s1 sp nx (SplineIdx.seg j)).ys.length := by
      rw [hys2, hys]; exact hidx
    rw [← hyr1]
    by_cases hm : ((loadSegment st1 idx s1 sp nx
        (SplineIdx.seg j)).y_ranges.getD idx yRangeDefault).modular_arithmetic = true
    · have hgl : 0 < ((loadSegment st1 idx s1 sp nx
          (SplineIdx.seg j)).y_ranges.getD idx yRangeDefault).valid_y.Length := by
        rw [hyr1]
        unfold Range.Length
        linarith
      have hval : (EvaluateIndex (loadSegment st1 idx s1 sp nx
          (SplineIdx.seg j)) idx).ys.getD idx 0 =
          ((loadSegment st1 idx s1 sp nx (SplineIdx.seg j)).cubics.getD idx
            cubicZero).Evaluate
            ((loadSegment st1 idx s1 sp nx (SplineIdx.seg j)).cubic_xs.getD idx 0) +
          ((loadSegment st1 idx s1 sp nx (SplineIdx.seg j)).y_ranges.getD idx
            yRangeDefault).valid_y.ModularAdjustment
            (((loadSegment st1 idx s1 sp nx (SplineIdx.seg j)).cubics.getD idx
              cubicZero).Evaluate
              ((loadSegment st1 idx s1 sp nx (SplineIdx.seg j)).cubic_xs.getD idx 0)) := by
        rw [EvaluateIndex_eq_modular _ idx hm]
        exact getD_set_self _ _ _ _ hly
      rw [hval]
      have hb := modularAdjustment_lands
        ((loadSegment st1 idx s1 sp nx (SplineIdx.seg j)).y_ranges.getD idx
          yRangeDefault).valid_y
        (((loadSegment st1 idx s1 sp nx (SplineIdx.seg j)).cubics.getD idx
          cubicZero).Evaluate
          ((loadSegment st1 idx s1 sp nx (SplineIdx.seg j)).cubic_xs.getD idx 0))
        hgl
      exact ⟨hb.1, hb.2.le⟩
    · have hm' : ((loadSegment st1 idx s1 sp nx
          (SplineIdx.seg j)).y_ranges.getD idx
          yRangeDefault).modular_arithmetic = false := by simpa using hm
      have hval : (EvaluateIndex (loadSegment st1 idx s1 sp nx
          (SplineIdx.seg j)) idx).ys.getD idx 0 =
          ((loadSegment st1 idx s1 sp nx (SplineIdx.seg j)).y_ranges.getD idx
            yRangeDefault).valid_y.Clamp
            (((loadSegment st1 idx s1 sp nx (SplineIdx.seg j)).cubics.getD idx
              cubicZero).Evaluate
              ((loadSegment st1 idx s1 sp nx (SplineIdx.seg j)).cubic_xs.getD idx 0)) := by
        rw [EvaluateIndex_eq_clamp _ idx hm']
        exact getD_set_self _ _ _ _ hly
      rw [hval]
      exact clamp_contains _ _ (by rw [hyr1]; exact hr.le)

/-- C4: after SetSpline on a non-null curve whose start position resolves to
a segment (directly, or after one wraparound when repeat is set), the slot
immediately has that segment loaded, the current position X equals the
requested start position (reduced by the curve's total span when wraparound
occurred), and the freshly evaluated output lies in the slot's valid
interval. -/
theorem setSpline_spec (st : EvalState) (idx : ℕ) (pb : SplinePlayback)
    (sp : CompactSpline) (j : ℕ) (nx : ℚ)
    (hwf : WellFormed st) (hidx : idx < NumIndices st)
    (hsp : pb.spline = some sp)
    (hr : (st.y_ranges.getD idx yRangeDefault).valid_y.start <
          (st.y_ranges.getD idx yRangeDefault).valid_y.end_)
    (hres : (IndexForX sp pb.start_x 0 = SplineIdx.seg j ∧ nx = pb.start_x) ∨
      (pb.rep = true ∧ IndexForX sp pb.start_x 0 = SplineIdx.afterSpline ∧
        IndexForX sp (pb.start_x - LengthX sp) 0 = SplineIdx.seg j ∧
        nx = pb.start_x - LengthX sp)) :
    ((SetSpline st idx pb).sources.getD idx sourceDefault).x_index =
      SplineIdx.seg j ∧
    X (SetSpline st idx pb) idx = nx ∧
    (st.y_ranges.getD idx yRangeDefault).valid_y.Contains
      ((SetSpline st idx pb).ys.getD idx 0) := by
  obtain ⟨hyr, hxs, hxe, hcb, hys⟩ := hwf
  have hidxs : idx < st.sources.length := hidx
  have hw1 : WellFormed (setSplineSource st idx pb) := by
    refine ⟨?_, ?_, ?_, ?_, ?_⟩ <;>
      simp only [setSplineSource, List.length_set] <;>
      first
        | exact hyr | exact hxs | exact hxe | exact hcb | exact hys
  have hidx1 : idx < NumIndices (setSplineSource st idx pb) := by
    simp only [NumIndices, setSplineSource, List.length_set]
    exact hidx
  have hs1 : (setSplineSource st idx pb).sources.getD idx sourceDefault =
      ⟨pb.spline, SplineIdx.invalid, pb.rep⟩ := by
    show (st.sources.set idx
      ⟨pb.spline, SplineIdx.invalid, pb.rep⟩).getD idx sourceDefault = _
    exact getD_set_self _ _ _ _ hidxs
  have hsp1 : ((setSplineSource st idx pb).sources.getD idx
      sourceDefault).spline = some sp := by rw [hs1]; exact hsp
  have hss : searchStart sp ((setSplineSource st idx pb).sources.getD idx
      sourceDefault).x_index = 0 := by rw [hs1]; rfl
  have hrep1 : ((setSplineSource st idx pb).sources.getD idx
      sourceDefault).rep = pb.rep := by rw [hs1]
  have hInit : InitCubic (setSplineSource st idx pb) idx pb.start_x =
      loadSegment (setSplineSource st idx pb) idx
        ((setSplineSource st idx pb).sources.getD idx sourceDefault) sp nx
        (SplineIdx.seg j) := by
    rw [InitCubic_eq_some _ idx pb.start_x sp hsp1, hss]
    rcases hres with ⟨hfound, hnx⟩ | ⟨hrep, hafter, hfound, hnx⟩
    · subst hnx
      rw [hfound]
      rw [if_neg (by simp)]
    · subst hnx
      rw [hafter]
      rw [if_pos ⟨by rw [hrep1]; exact hrep, rfl⟩]
      rw [hfound]
  have hSS : SetSpline st idx pb =
      EvaluateIndex (loadSegment (setSplineSource st idx pb) idx
        ⟨pb.spline, SplineIdx.invalid, pb.rep⟩ sp nx (SplineIdx.seg j)) idx := by
    show EvaluateIndex
      (InitCubic (setSplineSource st idx pb) idx pb.start_x) idx = _
    rw [hInit, hs1]
  have hfin := evaluate_after_load (setSplineSource st idx pb) idx
    ⟨pb.spline, SplineIdx.invalid, pb.rep⟩ sp nx j hw1 hidx1 hsp
    (fun h => SplineIdx.noConfusion h) hr
  rw [hSS]
  exact ⟨hfin.1, hfin.2.2.1, hfin.2.2.2⟩

/-- A one-slot store with no curve assigned yet and output range 0 to 10. -/
def stateForAssign : EvalState :=
  ⟨[sourceDefault], [⟨⟨0, 10⟩, false⟩], [0], [0], [cubicZero], [0]⟩

/-- Position 3 of splineW lies in segment 0. -/
theorem indexForX_splineW_at_3 : IndexForX splineW 3 0 = SplineIdx.seg 0 := by
  norm_num [IndexForX, coversX, splineW, segDefault, cubicZero, List.find?,
    List.range']

/-- C4 witness: assigning splineW at start position 3 to the concrete store
loads segment 0, puts the current position at 3 and the output in range. -/
theorem setSpline_spec_witness :
    WellFormed stateForAssign ∧ 0 < NumIndices stateForAssign ∧
    (⟨some splineW, 3, false⟩ : SplinePlayback).spline = some splineW ∧
    (stateForAssign.y_ranges.getD 0 yRangeDefault).valid_y.start <
      (stateForAssign.y_ranges.getD 0 yRangeDefault).valid_y.end_ ∧
    IndexForX splineW 3 0 = SplineIdx.seg 0 ∧
    (((SetSpline stateForAssign 0 ⟨some splineW, 3, false⟩).sources.getD 0
        sourceDefault).x_index = SplineIdx.seg 0 ∧
     X (SetSpline stateForAssign 0 ⟨some splineW, 3, false⟩) 0 = 3 ∧
     (stateForAssign.y_ranges.getD 0 yRangeDefault).valid_y.Contains
       ((SetSpline stateForAssign 0 ⟨some splineW, 3, false⟩).ys.getD 0 0)) :=
  ⟨by decide, by decide, rfl, by decide, indexForX_splineW_at_3,
   setSpline_spec stateForAssign 0 ⟨some splineW, 3, false⟩ splineW 0 3
     (by decide) (by decide) rfl (by decide)
     (Or.inl ⟨indexForX_splineW_at_3, rfl⟩)⟩

end Motive
